import Mathlib

/-
Shallow embedding of the blogicum blog application
(src/blogicum/blog/models.py, src/blogicum/blog/views.py,
src/blogicum/core/models.py).

The relational store is a record of lists of rows; `timezone.now()` is a
clock field of the store; the Django ORM filters become `List.filter`
with decidable predicates; `get_object_or_404` on a queryset returns the
unique row or a 404 error (a queryset with several rows raises
`MultipleObjectsReturned`, modelled as a server error, which never
happens on primary-key filters of a well-formed store).  `on_delete`
declarations of the models (`SET_NULL`, `CASCADE`) are embedded as the
store-level deletion functions implementing exactly the declared
behavior, including Django's transitive collection of cascades.
-/

deriving instance DecidableEq for Except

namespace Blogicum

/-- The external identity entity (django.contrib.auth user): id and username. -/
structure UserRec where
  id : Nat
  username : String
deriving DecidableEq, Repr

/-- Category row (blog/models.py, class Category, with PublishedMixin). -/
structure Category where
  id : Nat
  title : String
  slug : String
  is_published : Bool
deriving DecidableEq, Repr

/-- Post row (blog/models.py, class Post).  `author` is required
(FK CASCADE); `location` and `category` are nullable (FK SET_NULL). -/
structure Post where
  id : Nat
  title : String
  text : String
  pub_date : Nat
  is_published : Bool
  author : Nat
  location : Option Nat
  category : Option Nat
deriving DecidableEq, Repr

/-- Comment row (blog/models.py, class Comment, with CreatedAtMixin):
nullable author (FK SET_NULL), required post (FK CASCADE). -/
structure Comment where
  id : Nat
  text : String
  author : Option Nat
  post : Nat
  created_at : Nat
deriving DecidableEq, Repr

/-- The relational store plus the request clock (`timezone.now()`), and
fresh-id counters for row insertion. -/
structure Store where
  users : List UserRec
  categories : List Category
  posts : List Post
  comments : List Comment
  now : Nat
  nextPostId : Nat
  nextCommentId : Nat
deriving DecidableEq, Repr

/-- The requesting actor: `request.user`, possibly anonymous. -/
inductive Actor where
  | anonymous
  | auth (u : UserRec)
deriving DecidableEq, Repr

/-- Embeds `request.user.is_authenticated`. -/
def Actor.is_authenticated : Actor → Bool
  | .anonymous => false
  | .auth _ => true

/-- HTTP request method as the views distinguish it. -/
inductive Method where
  | GET
  | POST
deriving DecidableEq, Repr

/-- Errors surfaced by `get_object_or_404` (`Http404`) and by
`queryset.get()` on several rows (`MultipleObjectsReturned`). -/
inductive HttpError where
  | notFound
  | serverError
deriving DecidableEq, Repr

/-- Embeds `django.shortcuts.get_object_or_404` applied to a queryset:
`Http404` when no row matches, the row when exactly one does, and a
server error (`MultipleObjectsReturned`) when several do. -/
def get_object_or_404 {α : Type} (l : List α) : Except HttpError α :=
  match l with
  | [] => .error .notFound
  | [a] => .ok a
  | _ => .error .serverError

/-- Primary-key lookup in the category table. -/
def Store.findCategory (s : Store) (cid : Nat) : Option Category :=
  s.categories.find? (fun c => c.id == cid)

/-- Embeds the join condition `Q(category__is_published=True)` over a
nullable foreign key: false when the post has no category (the join
produces no row), else the referenced category's published flag. -/
def category_join_published (s : Store) (p : Post) : Bool :=
  match p.category with
  | none => false
  | some cid =>
    match s.findCategory cid with
    | none => false
    | some c => c.is_published

/-- Embeds `Q(author=request.user)`: false for an anonymous actor. -/
def author_matches (actor : Actor) (p : Post) : Bool :=
  match actor with
  | .anonymous => false
  | .auth u => p.author == u.id

/-- Embeds `_get_q_available(request, own)` (blog/views.py lines 14-22)
as a decidable predicate on Post rows. -/
def get_q_available (s : Store) (actor : Actor) (own : Bool) (p : Post) : Bool :=
  let q_available :=
    decide (p.pub_date ≤ s.now) && p.is_published && category_join_published s p
  if own && actor.is_authenticated then
    q_available || author_matches actor p
  else
    q_available

/-- Stable insertion of one element into a sorted list, the building
block of the sort embedding `order_by`. -/
def insertSorted {α : Type} (le : α → α → Bool) (a : α) : List α → List α
  | [] => [a]
  | b :: l => if le a b then a :: b :: l else b :: insertSorted le a l

/-- Stable sort by a boolean comparison, embedding the ORM `order_by`. -/
def sortBy {α : Type} (le : α → α → Bool) : List α → List α
  | [] => []
  | a :: l => insertSorted le a (sortBy le l)

/-- Embeds `order_by('-pub_date')`. -/
def order_by_pub_date_desc (l : List Post) : List Post :=
  sortBy (fun a b => b.pub_date ≤ a.pub_date) l

/-- Embeds `order_by('created_at')` on comments. -/
def order_by_created_at (l : List Comment) : List Comment :=
  sortBy (fun a b => a.created_at ≤ b.created_at) l

/-- Rendered or redirected responses of the blog views. -/
inductive Response where
  | renderIndex (posts : List Post)
  | renderDetail (post : Post) (comments : List Comment)
  | renderCategory (category : Category) (posts : List Post)
  | renderCreate
  | renderComment (comment : Comment)
  | redirectPostDetail (post_id : Nat)
  | redirectProfile (username : String)
  | redirectIndex
deriving DecidableEq, Repr

/-- Embeds `index` (blog/views.py lines 25-34): the home-feed post list,
visibility predicate with `own=False`, newest-first.  Pagination is out
of scope; the full ordered list is returned. -/
def index (s : Store) (actor : Actor) : List Post :=
  order_by_pub_date_desc (s.posts.filter (get_q_available s actor false))

/-- The queryset filtered by `Q(pk=post_id)` together with the
visibility predicate with `own=True`, shared by `post_detail`,
`create_post`, `delete_post`, `add_comment` and `delete_comment`. -/
def available_posts_with_id (s : Store) (actor : Actor) (post_id : Nat) : List Post :=
  s.posts.filter (fun p => p.id == post_id && get_q_available s actor true p)

/-- Embeds `post_detail` (blog/views.py lines 37-60).  The view only
reads; the store is returned unchanged alongside the rendered page. -/
def post_detail (s : Store) (actor : Actor) (post_id : Nat) :
    Except HttpError (Store × Response) :=
  match get_object_or_404 (available_posts_with_id s actor post_id) with
  | .error e => .error e
  | .ok post =>
    let comments := order_by_created_at (s.comments.filter (fun c => c.post == post.id))
    .ok (s, .renderDetail post comments)

/-- Embeds `category_posts` (blog/views.py lines 63-80):
`get_object_or_404(Category, slug=slug, is_published=True)`, then the
category's posts filtered with `own=False`, newest-first. -/
def category_posts (s : Store) (actor : Actor) (slug : String) :
    Except HttpError Response :=
  match get_object_or_404
      (s.categories.filter (fun c => c.slug == slug && c.is_published)) with
  | .error e => .error e
  | .ok category =>
    let posts := order_by_pub_date_desc
      ((s.posts.filter (fun p => p.category == some category.id)).filter
        (get_q_available s actor false))
    .ok (.renderCategory category posts)

/-- Form data of `PostForm` (blog/forms.py): title, text, pub_date,
location, category (image omitted, out of scope). -/
structure PostFormData where
  title : String
  text : String
  pub_date : Nat
  location : Option Nat
  category : Option Nat
deriving DecidableEq, Repr

/-- Embeds `PostForm.is_valid()`: the required fields are non-empty
(`title`, `text`; `category` is form-required since `blank` defaults to
False on the model field; `location` has `blank=True`). -/
def PostFormData.is_valid (f : PostFormData) : Bool :=
  !(f.title == "") && !(f.text == "") && f.category.isSome

/-- Embeds `PostForm.save(commit=False)` on a bound instance: the form
fields overwrite the instance's, the rest (id, author, flags) stay. -/
def PostFormData.apply (f : PostFormData) (inst : Post) : Post :=
  { inst with
    title := f.title
    text := f.text
    pub_date := f.pub_date
    location := f.location
    category := f.category }

/-- Embeds `post.save()` on an instance carrying a primary key: replace
the row with that id (insertion of new rows is done at the call sites
with the fresh-id counter). -/
def Store.savePost (s : Store) (p : Post) : Store :=
  { s with posts := s.posts.map (fun q => if q.id == p.id then p else q) }

/-- Embeds `comment.save()` on an instance carrying a primary key. -/
def Store.saveComment (s : Store) (c : Comment) : Store :=
  { s with comments := s.comments.map (fun d => if d.id == c.id then c else d) }

/-- Embeds `create_post` (blog/views.py lines 112-142), which handles
both create (`post_id` absent) and edit (`post_id` present).  The
`login_required` decorator guarantees an authenticated user `u`.
`form` is the POST payload: `none` models an absent or empty payload
(an unbound form, never valid). -/
def create_post (s : Store) (u : UserRec) (post_id : Option Nat)
    (method : Method) (form : Option PostFormData) :
    Except HttpError (Store × Response) :=
  match post_id with
  | some pid =>
    match get_object_or_404 (available_posts_with_id s (.auth u) pid) with
    | .error e => .error e
    | .ok inst =>
      if inst.author != u.id then
        .ok (s, .redirectPostDetail pid)
      else
        match method, form with
        | .POST, some f =>
          if f.is_valid then
            let post := f.apply inst
            let post := { post with author := u.id, is_published := true }
            .ok (s.savePost post, .redirectPostDetail pid)
          else
            .ok (s, .renderCreate)
        | _, _ => .ok (s, .renderCreate)
  | none =>
    match method, form with
    | .POST, some f =>
      if f.is_valid then
        let post : Post :=
          { id := s.nextPostId
            title := f.title
            text := f.text
            pub_date := f.pub_date
            is_published := true
            author := u.id
            location := f.location
            category := f.category }
        .ok ({ s with
                posts := s.posts ++ [post]
                nextPostId := s.nextPostId + 1 },
             .redirectProfile u.username)
      else
        .ok (s, .renderCreate)
    | _, _ => .ok (s, .renderCreate)

/-- Embeds `delete_post` (blog/views.py lines 145-159). -/
def delete_post (s : Store) (u : UserRec) (post_id : Nat) (method : Method) :
    Except HttpError (Store × Response) :=
  match get_object_or_404 (available_posts_with_id s (.auth u) post_id) with
  | .error e => .error e
  | .ok inst =>
    if inst.author != u.id then
      .ok (s, .redirectPostDetail post_id)
    else if method == .POST then
      .ok ({ s with
              posts := s.posts.filter (fun p => p.id != inst.id)
              comments := s.comments.filter (fun c => c.post != inst.id) },
           .redirectIndex)
    else
      .ok (s, .renderCreate)

/-- Form data of `CommentForm` (blog/forms.py): the text field alone. -/
structure CommentFormData where
  text : String
deriving DecidableEq, Repr

/-- Embeds `CommentForm.is_valid()`: the required text is non-empty. -/
def CommentFormData.is_valid (f : CommentFormData) : Bool :=
  !(f.text == "")

/-- Embeds `add_comment` (blog/views.py lines 162-197), which handles
both adding (`comment_id` absent) and editing (`comment_id` present)
a comment.  Note the edit branch looks the comment up by its id alone
(`Comment.objects.filter(id=comment_id)`), with no constraint tying it
to `post_id`. -/
def add_comment (s : Store) (u : UserRec) (post_id : Nat)
    (comment_id : Option Nat) (method : Method) (form : Option CommentFormData) :
    Except HttpError (Store × Response) :=
  match get_object_or_404 (available_posts_with_id s (.auth u) post_id) with
  | .error e => .error e
  | .ok inst =>
    match comment_id with
    | none =>
      if method != .POST then
        .ok (s, .redirectPostDetail post_id)
      else
        match form with
        | some f =>
          if f.is_valid then
            let comment : Comment :=
              { id := s.nextCommentId
                text := f.text
                author := some u.id
                post := inst.id
                created_at := s.now }
            .ok ({ s with
                    comments := s.comments ++ [comment]
                    nextCommentId := s.nextCommentId + 1 },
                 .redirectPostDetail post_id)
          else
            .ok (s, .redirectPostDetail post_id)
        | none => .ok (s, .redirectPostDetail post_id)
    | some cid =>
      match get_object_or_404 (s.comments.filter (fun c => c.id == cid)) with
      | .error e => .error e
      | .ok comment =>
        if comment.author != some u.id then
          .ok (s, .redirectPostDetail post_id)
        else
          match method, form with
          | .POST, some f =>
            if f.is_valid then
              .ok (s.saveComment { comment with text := f.text },
                   .redirectPostDetail post_id)
            else
              .ok (s, .renderComment comment)
          | _, _ => .ok (s, .renderComment comment)

/-- Embeds `delete_comment` (blog/views.py lines 200-220).  Unlike the
edit branch of `add_comment`, the comment queryset here is filtered by
`post=instance` as well as `id=comment_id`. -/
def delete_comment (s : Store) (u : UserRec) (post_id : Nat) (comment_id : Nat)
    (method : Method) : Except HttpError (Store × Response) :=
  match get_object_or_404 (available_posts_with_id s (.auth u) post_id) with
  | .error e => .error e
  | .ok inst =>
    match get_object_or_404
        (s.comments.filter (fun c => c.post == inst.id && c.id == comment_id)) with
    | .error e => .error e
    | .ok comment =>
      if comment.author != some u.id then
        .ok (s, .redirectPostDetail post_id)
      else if method == .POST then
        .ok ({ s with comments := s.comments.filter (fun c => c.id != comment.id) },
             .redirectPostDetail post_id)
      else
        .ok (s, .renderComment comment)

/-- Embeds deleting a Category row under the model's `on_delete`
declarations: `Post.category` has `on_delete=SET_NULL`, so the posts
survive with `category` nulled. -/
def delete_category_row (s : Store) (cid : Nat) : Store :=
  { s with
    categories := s.categories.filter (fun c => c.id != cid)
    posts := s.posts.map
      (fun p => if p.category == some cid then { p with category := none } else p) }

/-- Embeds deleting a Post row: `Comment.post` has `on_delete=CASCADE`,
so the post's comments are deleted with it. -/
def delete_post_row (s : Store) (pid : Nat) : Store :=
  { s with
    posts := s.posts.filter (fun p => p.id != pid)
    comments := s.comments.filter (fun c => c.post != pid) }

/-- Embeds deleting a User row: `Post.author` has `on_delete=CASCADE`,
so the user's posts are deleted, and with them (transitively, through
`Comment.post`'s CASCADE) every comment on those posts; `Comment.author`
has `on_delete=SET_NULL`, so the user's surviving comments are kept with
`author` nulled. -/
def delete_user_row (s : Store) (uid : Nat) : Store :=
  let deadPostIds := (s.posts.filter (fun p => p.author == uid)).map (fun p => p.id)
  { s with
    users := s.users.filter (fun v => v.id != uid)
    posts := s.posts.filter (fun p => p.author != uid)
    comments :=
      (s.comments.filter (fun c => !(deadPostIds.contains c.post))).map
        (fun c => if c.author == some uid then { c with author := none } else c) }

/-- Fixture: an authenticated user. -/
def exUserA : UserRec := { id := 1, username := "alice" }

/-- Fixture: a second authenticated user. -/
def exUserB : UserRec := { id := 2, username := "bob" }

/-- Fixture: a published category. -/
def exCat : Category := { id := 1, title := "cats", slug := "cats", is_published := true }

/-- Fixture: a future-dated published post of user 2 (store clock is 10). -/
def exPost5 : Post :=
  { id := 5
    title := "future"
    text := "f"
    pub_date := 100
    is_published := true
    author := 2
    location := none
    category := some 1 }

/-- Fixture: an unpublished post of user 2. -/
def exPost6 : Post :=
  { id := 6
    title := "hidden"
    text := "h"
    pub_date := 0
    is_published := false
    author := 2
    location := none
    category := some 1 }

/-- Fixture: a publicly visible post of user 2. -/
def exPost7 : Post :=
  { id := 7
    title := "visible"
    text := "v"
    pub_date := 0
    is_published := true
    author := 2
    location := none
    category := some 1 }

/-- Fixture: a post of user 2 with no category. -/
def exPost8 : Post :=
  { id := 8
    title := "nocat"
    text := "n"
    pub_date := 0
    is_published := true
    author := 2
    location := none
    category := none }

/-- Fixture: a second publicly visible post of user 2. -/
def exPost9 : Post :=
  { id := 9
    title := "other"
    text := "o"
    pub_date := 0
    is_published := true
    author := 2
    location := none
    category := some 1 }

/-- Fixture: a comment of user 1 on post 7. -/
def exCmt1 : Comment :=
  { id := 1, text := "hi", author := some 1, post := 7, created_at := 1 }

/-- Fixture: the main example store, clock at 10. -/
def exStoreMain : Store :=
  { users := [exUserA, exUserB]
    categories := [exCat]
    posts := [exPost5, exPost6, exPost7, exPost8, exPost9]
    comments := [exCmt1]
    now := 10
    nextPostId := 10
    nextCommentId := 2 }

/-- Fixture: a post authored by user 1. -/
def exPostOwn : Post :=
  { id := 1
    title := "mine"
    text := "m"
    pub_date := 0
    is_published := true
    author := 1
    location := none
    category := none }

/-- Fixture: user 1's comment on user 1's own post. -/
def exCmtOwn : Comment :=
  { id := 1, text := "own", author := some 1, post := 1, created_at := 0 }

/-- Fixture: store where user 1 comments on their own post. -/
def exStoreC7 : Store :=
  { users := [exUserA]
    categories := []
    posts := [exPostOwn]
    comments := [exCmtOwn]
    now := 5
    nextPostId := 2
    nextCommentId := 2 }

/-- Fixture: user 2's comment on user 1's post. -/
def exCmtB : Comment :=
  { id := 9, text := "yo", author := some 2, post := 1, created_at := 3 }

/-- Fixture: store where user 2 comments on user 1's post. -/
def exStoreC7b : Store :=
  { users := [exUserA, exUserB]
    categories := []
    posts := [exPostOwn]
    comments := [exCmtB]
    now := 5
    nextPostId := 2
    nextCommentId := 10 }

/-- Fixture: a valid post form payload. -/
def exPostForm : PostFormData :=
  { title := "edited", text := "body", pub_date := 4, location := none, category := some 1 }

/-- Fixture: a valid comment form payload. -/
def exCmtForm : CommentFormData := { text := "edited" }

/-- Two members of a list pairwise-distinct under a key are equal when
their keys agree. -/
theorem mem_eq_of_pairwise_key {α β : Type} {f : α → β} {l : List α}
    (hl : l.Pairwise fun a b => f a ≠ f b) {a b : α}
    (ha : a ∈ l) (hb : b ∈ l) (hf : f a = f b) : a = b := by
  induction l with
  | nil => cases ha
  | cons x xs ih =>
    rw [List.pairwise_cons] at hl
    rcases List.mem_cons.mp ha with ha1 | ha2 <;>
      rcases List.mem_cons.mp hb with hb1 | hb2
    · exact ha1.trans hb1.symm
    · subst ha1; exact absurd hf (hl.1 b hb2)
    · subst hb1; exact absurd hf.symm (hl.1 a ha2)
    · exact ih hl.2 ha2 hb2

/-- Filtering a list pairwise-distinct under a key by a predicate that
pins the key down to a member's key yields exactly that member. -/
theorem filter_eq_singleton_of_pairwise_key {α β : Type} {f : α → β} {l : List α}
    (hl : l.Pairwise fun a b => f a ≠ f b) {g : α → Bool} {a : α}
    (ha : a ∈ l) (hga : g a = true)
    (himp : ∀ b ∈ l, g b = true → f b = f a) :
    l.filter g = [a] := by
  induction l with
  | nil => cases ha
  | cons x xs ih =>
    rw [List.pairwise_cons] at hl
    by_cases hgx : g x = true
    · have hfx : f x = f a := himp x (List.mem_cons_self x xs) hgx
      have hax : a = x := by
        rcases List.mem_cons.mp ha with h1 | h2
        · exact h1
        · exact absurd hfx (hl.1 a h2)
      subst hax
      rw [List.filter_cons_of_pos hgx]
      have hnil : xs.filter g = [] := by
        rw [List.filter_eq_nil_iff]
        intro b hb hgb
        exact hl.1 b hb ((himp b (List.mem_cons_of_mem a hb) hgb).symm)
      rw [hnil]
    · have ha2 : a ∈ xs := by
        rcases List.mem_cons.mp ha with h1 | h2
        · subst h1; exact absurd hga hgx
        · exact h2
      rw [List.filter_cons_of_neg (by simpa using hgx)]
      exact ih hl.2 ha2 (fun b hb => himp b (List.mem_cons_of_mem x hb))

/-- Membership through stable insertion. -/
theorem mem_insertSorted {α : Type} (le : α → α → Bool) (a b : α) (l : List α) :
    a ∈ insertSorted le b l ↔ a = b ∨ a ∈ l := by
  induction l with
  | nil => simp [insertSorted]
  | cons x xs ih =>
    by_cases h : le b x = true
    · simp [insertSorted, h, List.mem_cons]
    · simp only [insertSorted, if_neg h, List.mem_cons, ih]
      tauto

/-- Sorting permutes membership. -/
theorem mem_sortBy {α : Type} (le : α → α → Bool) (a : α) (l : List α) :
    a ∈ sortBy le l ↔ a ∈ l := by
  induction l with
  | nil => simp [sortBy]
  | cons x xs ih => simp [sortBy, mem_insertSorted, ih, List.mem_cons]

/-- Membership in the pk-and-visibility queryset, unfolded. -/
theorem mem_available_iff (s : Store) (actor : Actor) (pid : Nat) (p : Post) :
    p ∈ available_posts_with_id s actor pid ↔
      p ∈ s.posts ∧ p.id = pid ∧ get_q_available s actor true p = true := by
  simp [available_posts_with_id, List.mem_filter, Bool.and_eq_true, and_assoc]

/-- On a store with pairwise-distinct post ids, the pk-and-visibility
queryset of a visible member is that single row. -/
theorem available_eq_singleton (s : Store) (actor : Actor) (p : Post)
    (hu : s.posts.Pairwise fun a b => a.id ≠ b.id)
    (hmem : p ∈ s.posts)
    (hvis : get_q_available s actor true p = true) :
    available_posts_with_id s actor p.id = [p] := by
  apply filter_eq_singleton_of_pairwise_key (f := Post.id) hu hmem
  · simp [hvis]
  · intro b _ hb
    rw [Bool.and_eq_true] at hb
    exact eq_of_beq hb.1

/-- When no post matches the pk and the visibility predicate, the
queryset is empty. -/
theorem available_eq_nil (s : Store) (actor : Actor) (pid : Nat)
    (h : ∀ p ∈ s.posts, ¬(p.id = pid ∧ get_q_available s actor true p = true)) :
    available_posts_with_id s actor pid = [] := by
  rw [available_posts_with_id, List.filter_eq_nil_iff]
  intro p hp hcontra
  rw [Bool.and_eq_true] at hcontra
  exact h p hp ⟨eq_of_beq hcontra.1, hcontra.2⟩

/-- C1: the visibility predicate builder, applied to an actor and a flag
`own`, holds exactly when the post is past-dated, published, and in a
published category, or, only when `own` is true and the actor is
authenticated, when the post's author equals the actor; with
`own = false` the author-override disjunct is absent for every actor. -/
theorem C1_visibility_predicate (s : Store) (actor : Actor) (own : Bool) (p : Post) :
    (get_q_available s actor own p = true ↔
      ((p.pub_date ≤ s.now ∧ p.is_published = true ∧ category_join_published s p = true)
        ∨ (own = true ∧ ∃ u : UserRec, actor = .auth u ∧ p.author = u.id)))
    ∧ get_q_available s actor false p =
        (decide (p.pub_date ≤ s.now) && p.is_published && category_join_published s p) := by
  constructor
  · cases actor with
    | anonymous =>
      simp [get_q_available, Actor.is_authenticated, author_matches, Bool.and_eq_true,
        decide_eq_true_eq, and_assoc]
    | auth u =>
      cases own with
      | false =>
        simp [get_q_available, Actor.is_authenticated, author_matches, Bool.and_eq_true,
          decide_eq_true_eq, and_assoc]
      | true =>
        simp [get_q_available, Actor.is_authenticated, author_matches, Bool.and_eq_true,
          Bool.or_eq_true, decide_eq_true_eq, and_assoc]
  · simp [get_q_available]

/-- C2: `post_detail` yields 404 unless exactly one post matches the id
and the visibility predicate with `own = true` for the actor (post ids
are pairwise distinct, the primary-key invariant of the store); in
particular a post whose publication time is in the future yields 404 to
an anonymous actor. -/
theorem C2_post_detail_lookup (s : Store) (pid : Nat) (actor : Actor)
    (hu : s.posts.Pairwise fun a b => a.id ≠ b.id) :
    ((available_posts_with_id s actor pid).length ≠ 1 →
      post_detail s actor pid = .error .notFound)
    ∧ ((available_posts_with_id s actor pid).length = 1 →
      ∃ r, post_detail s actor pid = .ok r)
    ∧ (∀ p ∈ s.posts, p.id = pid → s.now < p.pub_date →
      post_detail s Actor.anonymous pid = .error .notFound) := by
  refine ⟨?_, ?_, ?_⟩
  · intro hne
    cases hA : available_posts_with_id s actor pid with
    | nil => simp [post_detail, hA, get_object_or_404]
    | cons p rest =>
      have hp : p ∈ available_posts_with_id s actor pid := by
        rw [hA]; exact List.mem_cons_self p rest
      rw [mem_available_iff] at hp
      have hsing := available_eq_singleton s actor p hu hp.1 hp.2.2
      rw [hp.2.1] at hsing
      rw [hsing] at hne
      exact absurd rfl hne
  · intro h1
    rcases List.length_eq_one.mp h1 with ⟨p, hp⟩
    refine ⟨(s, .renderDetail p
      (order_by_created_at (s.comments.filter (fun c => c.post == p.id)))), ?_⟩
    simp [post_detail, hp, get_object_or_404]
  · intro p hp hid hfut
    have hnil : available_posts_with_id s Actor.anonymous pid = [] := by
      apply available_eq_nil
      rintro q hq ⟨hqid, hqvis⟩
      have hqp : q = p :=
        mem_eq_of_pairwise_key (f := Post.id) hu hq hp (hqid.trans hid.symm)
      subst hqp
      simp [get_q_available, Actor.is_authenticated, Bool.and_eq_true,
        decide_eq_true_eq, and_assoc] at hqvis
      exact absurd hqvis.1 (not_le.mpr hfut)
    simp [post_detail, hnil, get_object_or_404]

/-- C2 witness: in the main fixture store (clock 10) the anonymous
request for post 5, dated 100, yields 404. -/
theorem C2_witness :
    post_detail exStoreMain Actor.anonymous 5 = .error .notFound :=
  (C2_post_detail_lookup exStoreMain 5 Actor.anonymous (by decide)).2.2
    exPost5 (by decide) (by decide) (by decide)

/-- C3 counterexample: user 1's edit request on post 6, an unpublished
post owned by user 2, yields 404 rather than the redirect to the detail
view demanded by the claim: the edit lookup filters by the visibility
predicate, so another owner's invisible post is not reachable at all. -/
theorem C3_counterexample :
    create_post exStoreMain exUserA (some 6) Method.GET none
        = Except.error HttpError.notFound
    ∧ create_post exStoreMain exUserA (some 6) Method.GET none
        ≠ Except.ok (exStoreMain, Response.redirectPostDetail 6) :=
  ⟨by decide, by decide⟩

/-- C3 amended: for every authenticated actor and every post that is
visible to that actor (visibility predicate with `own = true`) but owned
by a different actor, the edit request results in a redirect to the post
detail view and leaves the store unchanged. -/
theorem C3_edit_nonowner_redirect (s : Store) (u : UserRec) (p : Post)
    (hu : s.posts.Pairwise fun a b => a.id ≠ b.id)
    (hmem : p ∈ s.posts)
    (hvis : get_q_available s (.auth u) true p = true)
    (hown : p.author ≠ u.id)
    (method : Method) (form : Option PostFormData) :
    create_post s u (some p.id) method form = .ok (s, .redirectPostDetail p.id) := by
  have hsing := available_eq_singleton s (.auth u) p hu hmem hvis
  have hbne : (p.author != u.id) = true := bne_iff_ne.mpr hown
  simp [create_post, hsing, get_object_or_404, hbne]

/-- C3 witness: user 1's edit request on post 7, a visible post owned by
user 2, redirects to the detail view with the store unchanged. -/
theorem C3_witness :
    create_post exStoreMain exUserA (some 7) Method.GET none
      = Except.ok (exStoreMain, Response.redirectPostDetail 7) :=
  C3_edit_nonowner_redirect exStoreMain exUserA exPost7
    (by decide) (by decide) (by decide) (by decide) Method.GET none

/-- C4: a post with a null category fails the `categoryPublished`
conjunct of the visibility predicate, so to every actor other than its
author it is invisible: the predicate is false for every `own` flag, the
post is absent from the home feed, and its detail lookup yields 404. -/
theorem C4_null_category_invisible (s : Store) (p : Post)
    (hcat : p.category = none) (actor : Actor)
    (hact : author_matches actor p = false) :
    (∀ own, get_q_available s actor own p = false)
    ∧ p ∉ index s actor
    ∧ (p ∈ s.posts → (s.posts.Pairwise fun a b => a.id ≠ b.id) →
        post_detail s actor p.id = .error .notFound) := by
  have hjoin : category_join_published s p = false := by
    simp [category_join_published, hcat]
  have hpred : ∀ own, get_q_available s actor own p = false := by
    intro own
    cases h : (own && actor.is_authenticated) <;>
      simp [get_q_available, hjoin, hact, h]
  refine ⟨hpred, ?_, ?_⟩
  · intro hmem
    rw [index, order_by_pub_date_desc, mem_sortBy] at hmem
    have hfalse := (List.mem_filter.mp hmem).2
    rw [hpred false] at hfalse
    cases hfalse
  · intro hmem hu
    have hnil : available_posts_with_id s actor p.id = [] := by
      apply available_eq_nil
      rintro q hq ⟨hqid, hqvis⟩
      have hqp : q = p := mem_eq_of_pairwise_key (f := Post.id) hu hq hmem hqid
      subst hqp
      rw [hpred true] at hqvis
      cases hqvis
    simp [post_detail, hnil, get_object_or_404]

/-- C4 witness: post 8 (no category) is invisible to the anonymous
actor: predicate false, absent from the home feed, detail 404. -/
theorem C4_witness :
    get_q_available exStoreMain Actor.anonymous true exPost8 = false
    ∧ exPost8 ∉ index exStoreMain Actor.anonymous
    ∧ post_detail exStoreMain Actor.anonymous 8 = .error .notFound := by
  have h := C4_null_category_invisible exStoreMain exPost8 (by decide)
    Actor.anonymous (by decide)
  exact ⟨h.1 true, h.2.1, h.2.2 (by decide) (by decide)⟩

/-- C5: adding a comment requires the post to satisfy the visibility
predicate with `own = true` for the acting authenticated viewer, else
404; and a non-POST add request redirects to the detail view without
creating a comment or changing any state. -/
theorem C5_add_comment_guard (s : Store) (u : UserRec) (pid : Nat) :
    ((∀ p ∈ s.posts, ¬(p.id = pid ∧ get_q_available s (.auth u) true p = true)) →
      ∀ (cid : Option Nat) (m : Method) (f : Option CommentFormData),
        add_comment s u pid cid m f = .error .notFound)
    ∧ (∀ p ∈ s.posts, p.id = pid → get_q_available s (.auth u) true p = true →
        (s.posts.Pairwise fun a b => a.id ≠ b.id) →
        ∀ (m : Method), m ≠ Method.POST →
        ∀ (f : Option CommentFormData),
          add_comment s u pid none m f = .ok (s, .redirectPostDetail pid)) := by
  constructor
  · intro h cid m f
    have hnil := available_eq_nil s (.auth u) pid h
    simp [add_comment, hnil, get_object_or_404]
  · intro p hp hid hvis hu m hm f
    have hsing := available_eq_singleton s (.auth u) p hu hp hvis
    rw [hid] at hsing
    have hm2 : (m != Method.POST) = true := bne_iff_ne.mpr hm
    simp [add_comment, hsing, get_object_or_404, hm2]

/-- C5 witness: user 1 cannot comment on invisible post 6 (404), and a
GET add request on visible post 7 redirects with the store unchanged. -/
theorem C5_witness :
    add_comment exStoreMain exUserA 6 none Method.POST (some exCmtForm)
        = .error .notFound
    ∧ add_comment exStoreMain exUserA 7 none Method.GET none
        = .ok (exStoreMain, .redirectPostDetail 7) :=
  ⟨(C5_add_comment_guard exStoreMain exUserA 6).1 (by decide)
      none Method.POST (some exCmtForm),
   (C5_add_comment_guard exStoreMain exUserA 7).2 exPost7 (by decide) (by decide)
      (by decide) (by decide) Method.GET (by decide) none⟩

/-- C6: `category_posts` yields 404 when no category with the slug
exists or the matching category is unpublished; otherwise (slugs being
unique, the model's `unique=True`) it renders that category's posts
filtered by the visibility predicate with `own = false`. -/
theorem C6_category_feed (s : Store) (slug : String) (actor : Actor)
    (hu : s.categories.Pairwise fun a b => a.slug ≠ b.slug) :
    ((∀ c ∈ s.categories, ¬(c.slug = slug ∧ c.is_published = true)) →
      category_posts s actor slug = .error .notFound)
    ∧ (∀ c ∈ s.categories, c.slug = slug → c.is_published = true →
      category_posts s actor slug = .ok (.renderCategory c
        (order_by_pub_date_desc
          ((s.posts.filter (fun p => p.category == some c.id)).filter
            (get_q_available s actor false))))) := by
  constructor
  · intro h
    have hnil : s.categories.filter (fun c => c.slug == slug && c.is_published) = [] := by
      rw [List.filter_eq_nil_iff]
      intro c hc hcontra
      rw [Bool.and_eq_true] at hcontra
      exact h c hc ⟨eq_of_beq hcontra.1, hcontra.2⟩
    simp [category_posts, hnil, get_object_or_404]
  · intro c hc hslug hpub
    have hsing : s.categories.filter (fun d => d.slug == slug && d.is_published) = [c] := by
      apply filter_eq_singleton_of_pairwise_key (f := Category.slug) hu hc
      · rw [hslug]; simp [hpub]
      · intro b _ hb
        rw [Bool.and_eq_true] at hb
        rw [eq_of_beq hb.1, hslug]
    simp [category_posts, hsing, get_object_or_404]

/-- C6 witness: slug with no category yields 404; the published slug
renders the category feed filtered with `own = false`. -/
theorem C6_witness :
    category_posts exStoreMain Actor.anonymous "dogs" = .error .notFound
    ∧ category_posts exStoreMain Actor.anonymous "cats"
        = .ok (.renderCategory exCat (order_by_pub_date_desc
          ((exStoreMain.posts.filter (fun p => p.category == some exCat.id)).filter
            (get_q_available exStoreMain Actor.anonymous false)))) :=
  ⟨(C6_category_feed exStoreMain "dogs" Actor.anonymous (by decide)).1 (by decide),
   (C6_category_feed exStoreMain "cats" Actor.anonymous (by decide)).2 exCat
      (by decide) (by decide) (by decide)⟩

/-- A member of the post table after `savePost` is the saved row or an
untouched row with a different id. -/
theorem mem_savePost (s : Store) (p q : Post) (hq : q ∈ (s.savePost p).posts) :
    q = p ∨ q.id ≠ p.id := by
  rw [Store.savePost] at hq
  simp only [List.mem_map] at hq
  rcases hq with ⟨r, _, heq⟩
  cases hb : (r.id == p.id) with
  | false =>
    rw [hb] at heq
    simp only [Bool.false_eq_true, if_false] at heq
    subst heq
    exact Or.inr (ne_of_beq_false hb)
  | true =>
    rw [hb] at heq
    simp only [if_true] at heq
    exact Or.inl heq.symm

/-- The saved comment row is a member of the table after `saveComment`
when a row with its id was present. -/
theorem self_mem_saveComment (s : Store) (c d : Comment)
    (hd : d ∈ s.comments) (hid : d.id = c.id) :
    c ∈ (s.saveComment c).comments := by
  rw [Store.saveComment]
  simp only [List.mem_map]
  exact ⟨d, hd, by simp [hid]⟩

/-- C7 counterexample: in the fixture store user 1 authored both post 1
and comment 1 on that very post; deleting user 1 cascades through the
post (`Post.author` CASCADE, then `Comment.post` CASCADE), so the
comment is deleted rather than surviving with a nulled author as the
claim requires. -/
theorem C7_counterexample :
    exStoreC7.comments = [exCmtOwn]
    ∧ exCmtOwn.author = some 1
    ∧ (delete_user_row exStoreC7 1).comments = [] :=
  ⟨rfl, rfl, by decide⟩

/-- C7 amended: deleting a Category nulls the category reference on its
posts, which all survive; deleting a Post removes it and exactly its
comments; deleting a comment's author nulls the author reference and
the comment survives, provided the comment's post is not itself
authored by the deleted user (otherwise the post cascades and takes the
comment with it). -/
theorem C7_on_delete_behavior (s : Store) :
    (∀ (cid : Nat), ∀ p ∈ s.posts,
      (if p.category = some cid then { p with category := none } else p)
        ∈ (delete_category_row s cid).posts)
    ∧ (∀ (cid : Nat),
        (delete_category_row s cid).posts.length = s.posts.length)
    ∧ (∀ (pid : Nat), ∀ p ∈ s.posts, p.id = pid →
        p ∉ (delete_post_row s pid).posts)
    ∧ (∀ (pid : Nat), ∀ c ∈ s.comments,
        (c ∈ (delete_post_row s pid).comments ↔ c.post ≠ pid))
    ∧ (∀ (uid : Nat), ∀ c ∈ s.comments, c.author = some uid →
        (∀ p ∈ s.posts, p.id = c.post → p.author ≠ uid) →
        { c with author := none } ∈ (delete_user_row s uid).comments) := by
  refine ⟨?_, ?_, ?_, ?_, ?_⟩
  · intro cid p hp
    simp only [delete_category_row]
    refine List.mem_map.mpr ⟨p, hp, ?_⟩
    by_cases h : p.category = some cid
    · simp [h]
    · simp [h]
  · intro cid
    simp [delete_category_row]
  · intro pid p hp hid
    intro hmem
    simp only [delete_post_row] at hmem
    have := (List.mem_filter.mp hmem).2
    rw [hid] at this
    simp at this
  · intro pid c hc
    simp [delete_post_row, List.mem_filter, hc, bne_iff_ne]
  · intro uid c hc hauth hpost
    simp only [delete_user_row]
    refine List.mem_map.mpr ⟨c, ?_, by simp [hauth]⟩
    rw [List.mem_filter]
    refine ⟨hc, ?_⟩
    rw [Bool.not_eq_true']
    by_contra hcon
    rw [Bool.not_eq_false] at hcon
    rw [List.contains_iff_exists_mem_beq] at hcon
    rcases hcon with ⟨x, hx, hbeq⟩
    rcases List.mem_map.mp hx with ⟨p, hpf, hpid⟩
    rcases List.mem_filter.mp hpf with ⟨hps, hpa⟩
    exact hpost p hps (hpid.trans (eq_of_beq hbeq).symm) (eq_of_beq hpa)

/-- C7 witness: deleting user 2, who commented on user 1's post, keeps
the comment with its author reference nulled. -/
theorem C7_witness :
    { exCmtB with author := none } ∈ (delete_user_row exStoreC7b 2).comments :=
  (C7_on_delete_behavior exStoreC7b).2.2.2.2 2 exCmtB (by decide) (by decide)
    (by decide)

/-- C8: `post_detail` is a read-only operation: a successful call
returns the store unchanged, and immediately re-querying the same id
over that store returns the identical content. -/
theorem C8_getPost_readonly (s : Store) (actor : Actor) (pid : Nat)
    (t : Store) (r : Response)
    (h : post_detail s actor pid = .ok (t, r)) :
    t = s ∧ post_detail t actor pid = .ok (t, r) := by
  rw [post_detail] at h
  cases hg : get_object_or_404 (available_posts_with_id s actor pid) with
  | error e => rw [hg] at h; cases h
  | ok post =>
    rw [hg] at h
    simp only [Except.ok.injEq, Prod.mk.injEq] at h
    obtain ⟨h1, h2⟩ := h
    subst h1
    subst h2
    exact ⟨rfl, by rw [post_detail, hg]⟩

/-- C8 witness: the successful detail read of post 7 leaves the store
unchanged and carries the post with its comments oldest-first. -/
theorem C8_witness :
    exStoreMain = exStoreMain
    ∧ post_detail exStoreMain Actor.anonymous 7
        = .ok (exStoreMain, .renderDetail exPost7 [exCmt1]) :=
  C8_getPost_readonly exStoreMain Actor.anonymous 7 exStoreMain
    (.renderDetail exPost7 [exCmt1]) (by decide)

/-- C9: every successful save through the create/edit handler sets the
saved post's published flag to true and its author to the requesting
actor; in particular an owner's successful edit of a post whose
published flag was false re-publishes it, whatever the form content. -/
theorem C9_save_republishes (s : Store) (u : UserRec) :
    (∀ f : PostFormData, f.is_valid = true →
      ∃ t, create_post s u none .POST (some f)
          = .ok (t, .redirectProfile u.username)
        ∧ ∃ p ∈ t.posts, p.id = s.nextPostId ∧ p.author = u.id
            ∧ p.is_published = true)
    ∧ ((s.posts.Pairwise fun a b => a.id ≠ b.id) →
      ∀ p ∈ s.posts, p.author = u.id →
      ∀ f : PostFormData, f.is_valid = true →
      ∃ t, create_post s u (some p.id) .POST (some f)
          = .ok (t, .redirectPostDetail p.id)
        ∧ ∀ q ∈ t.posts, q.id = p.id →
            q.is_published = true ∧ q.author = u.id) := by
  constructor
  · intro f hf
    simp only [create_post, hf, if_true]
    refine ⟨_, rfl, ?_⟩
    refine ⟨{ id := s.nextPostId
              title := f.title
              text := f.text
              pub_date := f.pub_date
              is_published := true
              author := u.id
              location := f.location
              category := f.category }, ?_, rfl, rfl, rfl⟩
    simp
  · intro hu p hp hpauth f hf
    have hvis : get_q_available s (.auth u) true p = true := by
      simp [get_q_available, Actor.is_authenticated, author_matches, hpauth]
    have hsing := available_eq_singleton s (.auth u) p hu hp hvis
    simp only [create_post, hsing, get_object_or_404, hpauth, bne_self_eq_false,
      Bool.false_eq_true, if_false, hf, if_true]
    refine ⟨_, rfl, ?_⟩
    intro q hq hqid
    rcases mem_savePost _ _ _ hq with hqp | hqne
    · subst hqp
      exact ⟨rfl, rfl⟩
    · exact absurd hqid hqne

/-- C9 witness: user 2's successful edit of their unpublished post 6
re-publishes it and keeps user 2 as author. -/
theorem C9_witness :
    ∃ t, create_post exStoreMain exUserB (some 6) .POST (some exPostForm)
        = .ok (t, .redirectPostDetail 6)
      ∧ ∀ q ∈ t.posts, q.id = 6 → q.is_published = true ∧ q.author = 2 :=
  (C9_save_republishes exStoreMain exUserB).2 (by decide) exPost6 (by decide)
    (by decide) exPostForm (by decide)

/-- C10: the comment-edit operation looks the comment up by its id alone
and never checks that it belongs to the post named in the request: for a
comment authored by the actor and any post visible to the actor, editing
through that pair operates on the comment even though it sits on a
different post — while comment deletion on the very same pair yields
404, since its queryset is also filtered by the post. -/
theorem C10_comment_edit_ignores_post (s : Store) (u : UserRec)
    (hp : s.posts.Pairwise fun a b => a.id ≠ b.id)
    (hcp : s.comments.Pairwise fun a b => a.id ≠ b.id)
    (pst : Post) (hpmem : pst ∈ s.posts)
    (hvis : get_q_available s (.auth u) true pst = true)
    (cm : Comment) (hcm : cm ∈ s.comments) (hauth : cm.author = some u.id)
    (hdiff : cm.post ≠ pst.id) :
    (∀ f : CommentFormData, f.is_valid = true →
      ∃ t, add_comment s u pst.id (some cm.id) .POST (some f)
          = .ok (t, .redirectPostDetail pst.id)
        ∧ { cm with text := f.text } ∈ t.comments)
    ∧ delete_comment s u pst.id cm.id .POST = .error .notFound := by
  have hsing := available_eq_singleton s (.auth u) pst hp hpmem hvis
  constructor
  · intro f hf
    have hcsing : s.comments.filter (fun d => d.id == cm.id) = [cm] := by
      apply filter_eq_singleton_of_pairwise_key (f := Comment.id) hcp hcm
      · simp
      · intro b _ hb
        exact eq_of_beq hb
    refine ⟨s.saveComment { cm with text := f.text }, ?_, ?_⟩
    · simp [add_comment, hsing, hcsing, get_object_or_404, hauth, hf]
    · exact self_mem_saveComment s { cm with text := f.text } cm hcm rfl
  · have hnil : s.comments.filter
        (fun d => d.post == pst.id && d.id == cm.id) = [] := by
      rw [List.filter_eq_nil_iff]
      intro d hd hcontra
      rw [Bool.and_eq_true] at hcontra
      have hdc : d = cm :=
        mem_eq_of_pairwise_key (f := Comment.id) hcp hd hcm (eq_of_beq hcontra.2)
      subst hdc
      exact hdiff (eq_of_beq hcontra.1)
    simp [delete_comment, hsing, hnil, get_object_or_404]

/-- C10 witness: user 1 edits their comment 1, which belongs to post 7,
through the unrelated visible post 9: the edit succeeds and rewrites
comment 1, while the delete request through the same pair yields 404. -/
theorem C10_witness :
    (∃ t, add_comment exStoreMain exUserA 9 (some 1) .POST (some exCmtForm)
        = .ok (t, .redirectPostDetail 9)
      ∧ { exCmt1 with text := exCmtForm.text } ∈ t.comments)
    ∧ delete_comment exStoreMain exUserA 9 1 .POST = .error .notFound := by
  have h := C10_comment_edit_ignores_post exStoreMain exUserA (by decide) (by decide)
    exPost9 (by decide) (by decide) exCmt1 (by decide) (by decide) (by decide)
  exact ⟨h.1 exCmtForm (by decide), h.2⟩

end Blogicum
